import Mathlib

/-
Verification of the uler-lang core (lexer, parser, tree-walking evaluator)
against its natural-language specification.  Definitions are shallow
embeddings of the Rust sources under src/; components of the repository
whose files are not available (environment.rs, object.rs, builtins.rs,
the token enum of the evaluator revision, parser/prefix.rs,
parser/infix.rs) are modelled from the spec and are marked as such in
their doc comments.
-/

namespace Uler

/-- Token type of the lexer/evaluator revision.  The token enum source file
of this revision is not under src/; the constructors are read off their
uses in src/src/lexer.rs and src/src/evaluator/mod.rs (EOF, Illegal,
payload variants, the operator, punctuation and keyword tags). -/
inductive Token where
  | EOF
  | Illegal (s : String)
  | Ident (s : String)
  | Int (s : String)
  | String (s : String)
  | Assign
  | Walrus
  | Eq
  | NotEq
  | Bang
  | Semicolon
  | LParen
  | RParen
  | Comma
  | Plus
  | Minus
  | Asterisk
  | Slash
  | Percent
  | GT
  | LT
  | LBrace
  | RBrace
  | Function
  | While
  | If
  | Else
  | Return
  | True
  | False
  | Let
deriving DecidableEq

mutual

/-- Expression AST of the evaluator revision.  The ast module of this
revision is not under src/; the variants and their fields are read off the
exhaustive match in Evaluator::eval_expression (src/src/evaluator/mod.rs
lines 62-173) together with spec section 3.  Identifiers are represented
by their string value (the only field the evaluator reads). -/
inductive Expression where
  | IntegerLiteral (value : Int)
  | BooleanExpression (value : Bool)
  | StringLiteral (value : String)
  | PrefixExpression (operator : Token) (right : Expression)
  | InfixExpression (left : Expression) (operator : Token) (right : Expression)
  | IfExpression (condition : Expression) (consequence : List Statement)
      (alternative : Option (List Statement))
  | CallExpression (function : Expression) (args : List Expression)
  | FunctionLiteral (params : List String) (body : List Statement)
  | Identifier (value : String)

/-- Statement AST of the evaluator revision.  Variants read off the
exhaustive match in Evaluator::eval_statement (src/src/evaluator/mod.rs
lines 186-238): ExpressionStatement, BlockStatement, ReturnStatement,
Var (declare/assign, carrying its operator token) and WhileStatement. -/
inductive Statement where
  | ExpressionStatement (expression : Expression)
  | BlockStatement (statements : List Statement)
  | ReturnStatement (returnValue : Expression)
  | Var (token : Token) (name : String) (value : Expression)
  | WhileStatement (condition : Expression) (block : List Statement)

end

/-- Value type of the evaluator.  Modelled from the spec: object.rs is not
under src/.  Spec section 3 lists Integer, Float, String, Boolean, Null,
Function (params, body, captured env) and Builtin; the evaluator revision
in src/ constructs no Float (eval_expression has no float case), so the
Float variant is omitted.  The captured environment is a scope identifier
into the shared store (spec: environments are reference-counted and
shared). -/
inductive Object where
  | Integer (value : Int)
  | Boolean (value : Bool)
  | String (value : String)
  | Null
  | Function (params : List String) (body : List Statement) (env : Nat)
  | Builtin (name : String)

/-- Evaluator error type, from src/src/error.rs lines 28-53. -/
inductive EvaluatorError where
  | PrefixOperator (op : Token) (right : Object)
  | UnknownInfixOperator (left : Object) (op : Token) (right : Object)
  | UnknownVariable (name : String)
  | NotAFunction
  | OverwriteBuiltin (name : String)
  | VariableRedeclaration (name : String)
  | ReturningValue (value : Object)
  | UnexpectedToken (tok : Token)

mutual

/-- Structural equality on statements, used by Object equality. -/
def stmtBeq : Statement → Statement → Bool
  | .ExpressionStatement a, .ExpressionStatement b => exprBeq a b
  | .BlockStatement a, .BlockStatement b => stmtListBeq a b
  | .ReturnStatement a, .ReturnStatement b => exprBeq a b
  | .Var t1 n1 v1, .Var t2 n2 v2 => t1 == t2 && n1 == n2 && exprBeq v1 v2
  | .WhileStatement c1 b1, .WhileStatement c2 b2 => exprBeq c1 c2 && stmtListBeq b1 b2
  | _, _ => false

def stmtListBeq : List Statement → List Statement → Bool
  | [], [] => true
  | a :: as, b :: bs => stmtBeq a b && stmtListBeq as bs
  | _, _ => false

def exprBeq : Expression → Expression → Bool
  | .IntegerLiteral a, .IntegerLiteral b => a == b
  | .BooleanExpression a, .BooleanExpression b => a == b
  | .StringLiteral a, .StringLiteral b => a == b
  | .PrefixExpression o1 r1, .PrefixExpression o2 r2 => o1 == o2 && exprBeq r1 r2
  | .InfixExpression l1 o1 r1, .InfixExpression l2 o2 r2 =>
      exprBeq l1 l2 && o1 == o2 && exprBeq r1 r2
  | .IfExpression c1 q1 a1, .IfExpression c2 q2 a2 =>
      exprBeq c1 c2 && stmtListBeq q1 q2 && optStmtListBeq a1 a2
  | .CallExpression f1 a1, .CallExpression f2 a2 => exprBeq f1 f2 && exprListBeq a1 a2
  | .FunctionLiteral p1 b1, .FunctionLiteral p2 b2 => p1 == p2 && stmtListBeq b1 b2
  | .Identifier a, .Identifier b => a == b
  | _, _ => false

def exprListBeq : List Expression → List Expression → Bool
  | [], [] => true
  | a :: as, b :: bs => exprBeq a b && exprListBeq as bs
  | _, _ => false

def optStmtListBeq : Option (List Statement) → Option (List Statement) → Bool
  | none, none => true
  | some a, some b => stmtListBeq a b
  | _, _ => false

end

/-- Structural equality on objects (the == used by the evaluator's generic
Eq/NotEq arm).  Modelled from the spec: object.rs is not under src/; spec
section 3 fixes structural comparison for the value variants and
cross-variant inequality; Function values compare their params, body and
captured environment structurally. -/
def objBeq : Object → Object → Bool
  | .Integer a, .Integer b => a == b
  | .Boolean a, .Boolean b => a == b
  | .String a, .String b => a == b
  | .Null, .Null => true
  | .Function p1 b1 e1, .Function p2 b2 e2 => p1 == p2 && stmtListBeq b1 b2 && e1 == e2
  | .Builtin a, .Builtin b => a == b
  | _, _ => false

/-- One scope of the environment chain: a map from names to values plus an
optional parent scope.  Modelled from the spec: environment.rs is not
under src/; spec section 3 describes a node owning a name-to-value map
with an optional shared parent reference. -/
structure Scope where
  vars : List (String × Object)
  parent : Option Nat

/-- The shared heap of scopes.  Modelled from the spec: environments are
reference-counted and shared between closures and call frames (spec
sections 3, 5, 9); a scope is addressed by its index in this store. -/
abbrev Store := List Scope

/-- Lookup in a single scope's map. -/
def scopeLookup : List (String × Object) → String → Option Object
  | [], _ => none
  | (k, v) :: rest, name => if k == name then some v else scopeLookup rest name

/-- Insert or replace a binding in a single scope's map (HashMap::insert
semantics). -/
def scopeInsert : List (String × Object) → String → Object → List (String × Object)
  | [], name, v => [(name, v)]
  | (k, w) :: rest, name, v =>
      if k == name then (k, v) :: rest else (k, w) :: scopeInsert rest name v

/-- Environment read, walking outward through parents.  Modelled from the
spec: reads walk the chain from inner to outer scope (spec section 3).
The walk is bounded by the store size; capture only ever links a new scope
to an existing one, so chains in reachable stores are acyclic. -/
def envGetAux (s : Store) : Nat → Nat → String → Option Object
  | 0, _, _ => none
  | fuel + 1, e, name =>
      match List.get? s e with
      | none => none
      | some sc =>
          match scopeLookup sc.vars name with
          | some v => some v
          | none =>
              match sc.parent with
              | none => none
              | some p => envGetAux s fuel p name

def envGet (s : Store) (e : Nat) (name : String) : Option Object :=
  envGetAux s (List.length s) e name

/-- Environment write: always into the named scope's own map, never a
parent (spec section 3: set always writes into the current, innermost
map).  Modelled from the spec: environment.rs is not under src/. -/
def envSet (s : Store) (e : Nat) (name : String) (v : Object) : Store :=
  List.set s e (match List.get? s e with
    | some sc => { sc with vars := scopeInsert sc.vars name v }
    | none => { vars := [(name, v)], parent := none })

/-- Membership test against the current (innermost) scope only, backing
Environment::has_here.  Modelled from the spec: the declare invariant is
checked against the current scope only (spec section 3). -/
def envHasHere (s : Store) (e : Nat) (name : String) : Bool :=
  match List.get? s e with
  | some sc => (scopeLookup sc.vars name).isSome
  | none => false

/-- Environment::capture, used when evaluating a function literal.
Modelled from the spec: the capture is a new child scope linked to the
environment where the literal is evaluated (spec section 4.2).  Returns
the extended store and the new scope's identifier. -/
def envCapture (s : Store) (e : Nat) : Store × Nat :=
  (s ++ [{ vars := [], parent := some e }], List.length s)

/-- Names of the builtin registry.  Modelled from the spec: builtins.rs is
not under src/; the spec names builtins such as length and print (spec
sections 2, 4.2). -/
def builtinNames : List String := ["length", "print"]

/-- Builtins::has_fn.  Modelled from the spec: a fixed mapping from names
to native functions. -/
def hasFn (name : String) : Bool := builtinNames.contains name

/-- Builtins::call.  Modelled from the spec: native behaviour is outside
the core (spec section 6); no claim depends on the value a builtin
returns, so the dispatch is modelled as yielding Null. -/
def builtinCall (_name : String) (_args : List Object) : Object := Object.Null

/-- Result channel of the evaluator: the Rust Result<Object, EvaluatorError>
extended with `panicked` for host panics (the unguarded native division in
eval_expression) and `nofuel` for exhaustion of the step bound that makes
the embedding total. -/
inductive Outcome (α : Type) where
  | ok (v : α)
  | err (e : EvaluatorError)
  | panicked
  | nofuel

/-- The infix-operator dispatch of Evaluator::eval_expression
(src/src/evaluator/mod.rs lines 85-119), as a function of the two operand
values and the operator token.  Two Integers: native arithmetic and
comparisons, with the unguarded `/` and `%` a host panic when the right
operand is zero (Rust i64 division truncates toward zero: Int.tdiv /
Int.tmod).  Two Strings: `+` formats the operands with a single space
between them (format!("{} {}", l, r)); anything else is
UnknownInfixOperator.  Any other pair: structural ==/!=, else
UnknownInfixOperator. -/
def evalInfix (left : Object) (op : Token) (right : Object) : Outcome Object :=
  match left, right with
  | .Integer l, .Integer r =>
      match op with
      | .Plus => .ok (.Integer (l + r))
      | .Minus => .ok (.Integer (l - r))
      | .Asterisk => .ok (.Integer (l * r))
      | .Slash => if r == 0 then .panicked else .ok (.Integer (Int.tdiv l r))
      | .Percent => if r == 0 then .panicked else .ok (.Integer (Int.tmod l r))
      | .LT => .ok (.Boolean (l < r : Bool))
      | .GT => .ok (.Boolean (l > r : Bool))
      | .Eq => .ok (.Boolean (l == r))
      | .NotEq => .ok (.Boolean (l != r))
      | _ => .err (.UnknownInfixOperator left op right)
  | .String l, .String r =>
      match op with
      | .Plus => .ok (.String (l ++ " " ++ r))
      | _ => .err (.UnknownInfixOperator left op right)
  | _, _ =>
      match op with
      | .Eq => .ok (.Boolean (objBeq left right))
      | .NotEq => .ok (.Boolean (!objBeq left right))
      | _ => .err (.UnknownInfixOperator left op right)

/-- The prefix-operator dispatch of Evaluator::eval_expression
(src/src/evaluator/mod.rs lines 69-79). -/
def evalPrefixOp (op : Token) (right : Object) : Outcome Object :=
  match op with
  | .Bang =>
      match right with
      | .Boolean b => .ok (.Boolean (!b))
      | _ => .err (.PrefixOperator op right)
  | .Minus =>
      match right with
      | .Integer v => .ok (.Integer (-v))
      | _ => .err (.PrefixOperator op right)
  | _ => .err (.PrefixOperator op right)

/-- Parameter binding at a call: for (param, arg) in params.iter().zip(args),
env.set(param, arg) — directly into the function's captured environment
(src/src/evaluator/mod.rs lines 144-146).  zip silently drops excess
arguments and leaves unmatched parameters unbound. -/
def bindParams (s : Store) (e : Nat) (params : List String) (args : List Object) : Store :=
  (params.zip args).foldl (fun acc pv => envSet acc e pv.1 pv.2) s

mutual

/-- Evaluator::eval_expression (src/src/evaluator/mod.rs lines 61-174),
fuel-bounded.  State is the shared scope store plus the current scope id;
both are threaded through, and the possibly mutated store is returned even
on the error channel (mutations of shared environments persist). -/
def evalExpr : Nat → Store → Nat → Expression → Outcome Object × Store
  | 0, s, _, _ => (.nofuel, s)
  | _ + 1, s, _, .IntegerLiteral v => (.ok (.Integer v), s)
  | _ + 1, s, _, .BooleanExpression v => (.ok (.Boolean v), s)
  | _ + 1, s, _, .StringLiteral v => (.ok (.String v), s)
  | fuel + 1, s, env, .PrefixExpression op right =>
      match evalExpr fuel s env right with
      | (.ok rv, s1) => (evalPrefixOp op rv, s1)
      | r => r
  | fuel + 1, s, env, .InfixExpression left op right =>
      match evalExpr fuel s env left with
      | (.ok lv, s1) =>
          match evalExpr fuel s1 env right with
          | (.ok rv, s2) => (evalInfix lv op rv, s2)
          | r => r
      | r => r
  | fuel + 1, s, env, .IfExpression cond cons alt =>
      match evalExpr fuel s env cond with
      | (.ok (.Boolean true), s1) => evalStmt fuel s1 env (.BlockStatement cons)
      | (.ok _, s1) =>
          match alt with
          | some block => evalStmt fuel s1 env (.BlockStatement block)
          | none => (.ok .Null, s1)
      | r => r
  | fuel + 1, s, env, .CallExpression fnExpr args =>
      match evalExpr fuel s env fnExpr with
      | (.ok fv, s1) =>
          match evalExprList fuel s1 env args with
          | (.ok vs, s2) =>
              match fv with
              | .Function params body fenv =>
                  match evalStmt fuel (bindParams s2 fenv params vs) fenv
                      (.BlockStatement body) with
                  | (.ok v, s3) => (.ok v, s3)
                  | (.err (.ReturningValue v), s3) => (.ok v, s3)
                  | r => r
              | .Builtin name => (.ok (builtinCall name vs), s2)
              | _ => (.err .NotAFunction, s2)
          | (.err e, s2) => (.err e, s2)
          | (.panicked, s2) => (.panicked, s2)
          | (.nofuel, s2) => (.nofuel, s2)
      | r => r
  | _ + 1, s, env, .FunctionLiteral params body =>
      match envCapture s env with
      | (s1, id) => (.ok (.Function params body id), s1)
  | _ + 1, s, env, .Identifier name =>
      match envGet s env name with
      | some v => (.ok v, s)
      | none =>
          if hasFn name then (.ok (.Builtin name), s)
          else (.err (.UnknownVariable name), s)
termination_by structural fuel s env e => fuel

/-- Evaluator::eval_expressions (src/src/evaluator/mod.rs lines 176-184):
left-to-right evaluation of the argument list, aborting on the first
error. -/
def evalExprList : Nat → Store → Nat → List Expression → Outcome (List Object) × Store
  | 0, s, _, _ => (.nofuel, s)
  | _ + 1, s, _, [] => (.ok [], s)
  | fuel + 1, s, env, e :: rest =>
      match evalExpr fuel s env e with
      | (.ok v, s1) =>
          match evalExprList fuel s1 env rest with
          | (.ok vs, s2) => (.ok (v :: vs), s2)
          | r => r
      | (.err er, s1) => (.err er, s1)
      | (.panicked, s1) => (.panicked, s1)
      | (.nofuel, s1) => (.nofuel, s1)
termination_by structural fuel s env es => fuel

/-- Evaluator::eval_statement (src/src/evaluator/mod.rs lines 186-239). -/
def evalStmt : Nat → Store → Nat → Statement → Outcome Object × Store
  | 0, s, _, _ => (.nofuel, s)
  | fuel + 1, s, env, .ExpressionStatement e => evalExpr fuel s env e
  | fuel + 1, s, env, .BlockStatement stmts => evalStmtList fuel s env .Null stmts
  | fuel + 1, s, env, .ReturnStatement e =>
      match evalExpr fuel s env e with
      | (.ok v, s1) => (.err (.ReturningValue v), s1)
      | r => r
  | fuel + 1, s, env, .Var tok name value =>
      match tok with
      | .Walrus =>
          if envHasHere s env name then (.err (.VariableRedeclaration name), s)
          else if hasFn name then (.err (.OverwriteBuiltin name), s)
          else
            match evalExpr fuel s env value with
            | (.ok v, s1) => (.ok v, envSet s1 env name v)
            | r => r
      | .Assign =>
          if hasFn name then (.err (.OverwriteBuiltin name), s)
          else
            match evalExpr fuel s env value with
            | (.ok v, s1) => (.ok v, envSet s1 env name v)
            | r => r
      | _ => (.err .NotAFunction, s)
  | fuel + 1, s, env, .WhileStatement cond block =>
      match evalExpr fuel s env cond with
      | (.ok (.Boolean true), s1) =>
          match evalStmt fuel s1 env (.BlockStatement block) with
          | (.ok _, s2) => evalStmt fuel s2 env (.WhileStatement cond block)
          | r => r
      | (.ok _, s1) => (.ok .Null, s1)
      | r => r
termination_by structural fuel s env st => fuel

/-- The statement loop shared by Evaluator::evaluate_statements and the
BlockStatement arm (src/src/evaluator/mod.rs lines 48-59 and 189-197):
result starts as Null and is overwritten by each statement in order. -/
def evalStmtList : Nat → Store → Nat → Object → List Statement → Outcome Object × Store
  | 0, s, _, _, _ => (.nofuel, s)
  | _ + 1, s, _, acc, [] => (.ok acc, s)
  | fuel + 1, s, env, _, stmt :: rest =>
      match evalStmt fuel s env stmt with
      | (.ok v, s1) => evalStmtList fuel s1 env v rest
      | r => r
termination_by structural fuel s env acc stmts => fuel

end

/-- The initial store of a fresh Evaluator: one root scope with no parent
(Environment::default). -/
def store0 : Store := [{ vars := [], parent := none }]

/-- Evaluator::evaluate (src/src/evaluator/mod.rs lines 41-46): drain the
program's statements and run evaluate_statements against a fresh default
environment.  Note: no conversion of ReturningValue happens here; an
escaping ReturningValue is returned on the error channel. -/
def evaluateProgram (fuel : Nat) (stmts : List Statement) : Outcome Object × Store :=
  evalStmtList fuel store0 0 .Null stmts

/-- The parser's precedence levels, from src/src/parser.rs lines 6-15.
The enum of this revision has exactly these seven constructors, in this
declaration order; the source's Prefix level is spelled UnaryPrec here
because its source name is unavailable as a Lean identifier. -/
inductive Precedence where
  | Lowest
  | Equals
  | LessGreater
  | Sum
  | Product
  | UnaryPrec
  | Call
deriving DecidableEq

/-- The rank induced by the derived PartialOrd on Precedence (Rust derives
order by declaration order). -/
def Precedence.rank : Precedence → Nat
  | .Lowest => 0
  | .Equals => 1
  | .LessGreater => 2
  | .Sum => 3
  | .Product => 4
  | .UnaryPrec => 5
  | .Call => 6

/-- The strict order of the derived PartialOrd on Precedence. -/
def Precedence.lt (a b : Precedence) : Prop := a.rank < b.rank

instance : DecidablePred fun p : Precedence × Precedence => Precedence.lt p.1 p.2 :=
  fun _ => Nat.decLt _ _

instance (a b : Precedence) : Decidable (Precedence.lt a b) := Nat.decLt _ _

def precAll : List Precedence :=
  [.Lowest, .Equals, .LessGreater, .Sum, .Product, .UnaryPrec, .Call]

instance : Fintype Precedence where
  elems := ⟨(precAll : Multiset Precedence), by decide⟩
  complete := fun p => by cases p <;> decide

/-- Numeric-literal conversion, spec section 4.1: the lexeme text of an
Int token becomes an i64 at AST-construction time, failing on a malformed
lexeme (ParsingInteger).  The lexer of this revision only emits digit
runs, so the conversion is digit-string to integer. -/
def digitsToNat : List Char → Nat → Option Nat
  | [], acc => some acc
  | c :: cs, acc =>
      if 48 ≤ c.toNat && c.toNat ≤ 57 then digitsToNat cs (acc * 10 + (c.toNat - 48))
      else none

def parseIntLexeme (s : String) : Option Int :=
  match s.data with
  | [] => none
  | cs => (digitsToNat cs 0).map Int.ofNat

/-- Operator precedence table of the Pratt loop.  Modelled from the spec:
parser/infix.rs of this revision is not under src/; spec section 4.1 maps
==/!= to Equals, the comparisons to LessGreater, plus and minus to Sum
and the multiplicative operators to Product, restricted to the operator tokens the
lexer of this revision produces. -/
def tokenPrecedence : Token → Precedence
  | .Eq => .Equals
  | .NotEq => .Equals
  | .LT => .LessGreater
  | .GT => .LessGreater
  | .Plus => .Sum
  | .Minus => .Sum
  | .Asterisk => .Product
  | .Slash => .Product
  | .Percent => .Product
  | _ => .Lowest

/-- Whether a token has a binary infix rule in the Pratt table.  Modelled
from the spec (section 4.1's binary-operator infix rules, restricted to
this revision's lexer tokens; the call rule, which needs argument lists,
is not needed by any claim and is not modelled). -/
def hasInfixRule : Token → Bool
  | .Eq | .NotEq | .LT | .GT | .Plus | .Minus | .Asterisk | .Slash | .Percent => true
  | _ => false

mutual

/-- Precedence-climbing expression parsing over a token list.  Modelled
from the spec: parser/prefix.rs and parser/infix.rs are not under src/
(src's parse_expression delegates to the missing prefix_fn).  Per spec
section 4.1: apply the prefix rule of the current token (integer, boolean
and string literals, identifier, unary bang and minus, grouped
parentheses; the if and fn rules, which require statement blocks, are
beyond every claim and are not modelled), then fold infix operators whose
precedence exceeds the given bound, re-invoking with the operator's own
precedence so equal-precedence chains fold leftward. -/
def prattParse : Nat → Precedence → List Token → Option (Expression × List Token)
  | 0, _, _ => none
  | fuel + 1, minPrec, toks =>
      match toks with
      | .Int s :: rest =>
          match parseIntLexeme s with
          | some n => prattLoop fuel minPrec (.IntegerLiteral n) rest
          | none => none
      | .True :: rest => prattLoop fuel minPrec (.BooleanExpression true) rest
      | .False :: rest => prattLoop fuel minPrec (.BooleanExpression false) rest
      | .String s :: rest => prattLoop fuel minPrec (.StringLiteral s) rest
      | .Ident s :: rest => prattLoop fuel minPrec (.Identifier s) rest
      | .Bang :: rest =>
          match prattParse fuel .UnaryPrec rest with
          | some (e, rest1) => prattLoop fuel minPrec (.PrefixExpression .Bang e) rest1
          | none => none
      | .Minus :: rest =>
          match prattParse fuel .UnaryPrec rest with
          | some (e, rest1) => prattLoop fuel minPrec (.PrefixExpression .Minus e) rest1
          | none => none
      | .LParen :: rest =>
          match prattParse fuel .Lowest rest with
          | some (e, .RParen :: rest1) => prattLoop fuel minPrec e rest1
          | _ => none
      | _ => none
termination_by structural fuel p toks => fuel

/-- The infix loop of the Pratt parser: while the next token has an infix
rule whose precedence exceeds the bound, consume it and fold the left-hand
side.  Modelled from the spec (section 4.1). -/
def prattLoop : Nat → Precedence → Expression → List Token → Option (Expression × List Token)
  | 0, _, _, _ => none
  | fuel + 1, minPrec, left, toks =>
      match toks with
      | op :: rest =>
          if hasInfixRule op && decide (Precedence.lt minPrec (tokenPrecedence op)) then
            match prattParse fuel (tokenPrecedence op) rest with
            | some (right, rest1) =>
                prattLoop fuel minPrec (.InfixExpression left op right) rest1
            | none => none
          else some (left, toks)
      | [] => some (left, toks)
termination_by structural fuel p left toks => fuel

end

/-- Statement AST of the parser revision in src/src/parser.rs (trait-object
revision): let, return and expression statements, reusing the Expression
type for the expression payloads. -/
inductive PStatement where
  | letStmt (name : String) (value : Expression)
  | returnStmt (value : Expression)
  | exprStmt (expression : Expression)

/-- Result channel of the parser model: normal return, host panic (the
unwrap in parse_expression_statement) or exhaustion of the step bound. -/
inductive PRes (α : Type) where
  | ok (a : α)
  | panicked
  | nofuel

/-- Parser state, from src/src/parser.rs lines 17-22: the remaining token
stream plus the two lookahead slots and the error list. -/
structure ParserState where
  stream : List Token
  curr : Option Token
  peek : Option Token
  errors : List String

/-- The pull-based token stream: Lexer::next_token yields the next token,
then EOF forever once the input is drained (spec section 6's end-of-input
sentinel contract). -/
def streamNext : List Token → Token × List Token
  | [] => (Token.EOF, [])
  | t :: ts => (t, ts)

/-- Parser::next_token (src/src/parser.rs lines 39-46): curr takes peek's
value when peek is present, then peek pulls the next token from the
lexer. -/
def parserNextToken (st : ParserState) : ParserState :=
  match streamNext st.stream with
  | (t, ts) =>
      { stream := ts
        curr := match st.peek with
          | some tok => some tok
          | none => st.curr
        peek := some t
        errors := st.errors }

/-- Parser::new (src/src/parser.rs lines 25-37): two initial next_token
calls fill both lookahead slots. -/
def parserNew (toks : List Token) : ParserState :=
  parserNextToken (parserNextToken
    { stream := toks, curr := none, peek := none, errors := [] })

/-- Discriminant of a token, ignoring payloads. -/
def tokenTag : Token → Nat
  | .EOF => 0
  | .Illegal _ => 1
  | .Ident _ => 2
  | .Int _ => 3
  | .String _ => 4
  | .Assign => 5
  | .Walrus => 6
  | .Eq => 7
  | .NotEq => 8
  | .Bang => 9
  | .Semicolon => 10
  | .LParen => 11
  | .RParen => 12
  | .Comma => 13
  | .Plus => 14
  | .Minus => 15
  | .Asterisk => 16
  | .Slash => 17
  | .Percent => 18
  | .GT => 19
  | .LT => 20
  | .LBrace => 21
  | .RBrace => 22
  | .Function => 23
  | .While => 24
  | .If => 25
  | .Else => 26
  | .Return => 27
  | .True => 28
  | .False => 29
  | .Let => 30

/-- Token equality as used by curr_token_is / peek_token_is / expect_peek.
Modelled from the sources: the token enum file of this revision is not
under src/; Parser::parse_let_statement calls expect_peek(Token::Ident(""))
and its own test (src/src/ast/statements/let_statement.rs, fn parsing)
parses "let x = 5;" into one let statement, so this equality must match
Ident("x") against Ident("") — it compares variants, ignoring payloads. -/
def tokenVariantEq (a b : Token) : Bool := tokenTag a == tokenTag b

/-- Parser::curr_token_is (src/src/parser.rs lines 48-50). -/
def currTokenIs (st : ParserState) (other : Token) : Bool :=
  match st.curr with
  | some tok => tokenVariantEq tok other
  | none => false

/-- Parser::peek_token_is (src/src/parser.rs lines 52-54). -/
def peekTokenIs (st : ParserState) (other : Token) : Bool :=
  match st.peek with
  | some tok => tokenVariantEq tok other
  | none => false

/-- Parser::expect_peek (src/src/parser.rs lines 56-63): advance on a
variant match, report the outcome; records no error. -/
def expectPeek (st : ParserState) (other : Token) : Bool × ParserState :=
  if peekTokenIs st other then (true, parserNextToken st) else (false, st)

/-- The prefix rule lookup and application driven by Parser::parse_expression
(src/src/parser.rs line 161 delegates to the missing prefix_fn).  Modelled
from the spec: parser/prefix.rs is not under src/; spec section 4.1 gives
prefix rules for literal construction, identifiers, unary bang and minus,
and grouped parentheses (the if and fn rules, which require statement
blocks, are beyond every claim and are not modelled).  Returns none when
the current token has no prefix rule (or on literal-conversion failure or
fuel exhaustion); none is what the caller's unwrap panics on. -/
def prefixFn : Nat → ParserState → Option (Expression × ParserState)
  | 0, _ => none
  | fuel + 1, st =>
      match st.curr with
      | some (.Int s) =>
          match parseIntLexeme s with
          | some n => some (.IntegerLiteral n, st)
          | none => none
      | some .True => some (.BooleanExpression true, st)
      | some .False => some (.BooleanExpression false, st)
      | some (.String s) => some (.StringLiteral s, st)
      | some (.Ident s) => some (.Identifier s, st)
      | some .Bang =>
          match prefixFn fuel (parserNextToken st) with
          | some (e, st1) => some (.PrefixExpression .Bang e, st1)
          | none => none
      | some .Minus =>
          match prefixFn fuel (parserNextToken st) with
          | some (e, st1) => some (.PrefixExpression .Minus e, st1)
          | none => none
      | some .LParen =>
          match prefixFn fuel (parserNextToken st) with
          | some (e, st1) =>
              match expectPeek st1 .RParen with
              | (true, st2) => some (e, st2)
              | (false, _) => none
          | none => none
      | _ => none

/-- The skip-to-semicolon loop of parse_let_statement and
parse_return_statement (src/src/parser.rs lines 107-109 and 135-137):
advance until the current token is a semicolon. -/
def skipToSemicolon : Nat → ParserState → Option ParserState
  | 0, _ => none
  | fuel + 1, st =>
      if currTokenIs st .Semicolon then some st
      else skipToSemicolon fuel (parserNextToken st)

/-- Parser::parse_let_statement (src/src/parser.rs lines 90-121): expects
an identifier then an assign token (returning None — a silent skip —
when either is missing), skips to the semicolon, and builds a let
statement whose value is the hard-coded placeholder Identifier "5" (the
TODO stub in the source). -/
def parseLetStatement (fuel : Nat) (st : ParserState) :
    PRes (Option PStatement × ParserState) :=
  match expectPeek st (.Ident "") with
  | (false, st1) => .ok (none, st1)
  | (true, st1) =>
      let name := match st1.curr with
        | some (.Ident s) => s
        | _ => ""
      match expectPeek st1 .Assign with
      | (false, st2) => .ok (none, st2)
      | (true, st2) =>
          match skipToSemicolon fuel st2 with
          | some st3 => .ok (some (.letStmt name (.Identifier "5")), st3)
          | none => .nofuel

/-- Parser::parse_return_statement (src/src/parser.rs lines 123-140):
builds a return statement with the placeholder Identifier "5" value,
advances, and skips to the semicolon. -/
def parseReturnStatement (fuel : Nat) (st : ParserState) :
    PRes (Option PStatement × ParserState) :=
  match skipToSemicolon fuel (parserNextToken st) with
  | some st1 => .ok (some (.returnStmt (.Identifier "5")), st1)
  | none => .nofuel

/-- Parser::parse_expression_statement (src/src/parser.rs lines 142-153):
parse_expression(Lowest).unwrap() — a None from the expression parser is
a host panic, not a recorded error — then consume an optional trailing
semicolon. -/
def parseExpressionStatement (fuel : Nat) (st : ParserState) :
    PRes (Option PStatement × ParserState) :=
  match prefixFn fuel st with
  | none => .panicked
  | some (e, st1) =>
      let st2 := if peekTokenIs st1 .Semicolon then parserNextToken st1 else st1
      .ok (some (.exprStmt e), st2)

/-- Parser::parse_statement (src/src/parser.rs lines 79-88): dispatch on
the current token. -/
def parseStatement (fuel : Nat) (st : ParserState) :
    PRes (Option PStatement × ParserState) :=
  match st.curr with
  | some .Let => parseLetStatement fuel st
  | some .Return => parseReturnStatement fuel st
  | some _ => parseExpressionStatement fuel st
  | none => .ok (none, st)

/-- The loop of Parser::parse_program (src/src/parser.rs lines 65-77):
until the current token is EOF, parse a statement, append it when present,
and advance.  The function returns the built program unconditionally —
there is no error-list return path. -/
def parseProgramLoop : Nat → ParserState → List PStatement →
    PRes (List PStatement × ParserState)
  | 0, _, _ => .nofuel
  | fuel + 1, st, acc =>
      if currTokenIs st .EOF then .ok (acc.reverse, st)
      else
        match parseStatement fuel st with
        | .ok (optStmt, st1) =>
            parseProgramLoop fuel (parserNextToken st1)
              (match optStmt with
                | some s => s :: acc
                | none => acc)
        | .panicked => .panicked
        | .nofuel => .nofuel

/-- Parser::parse_program run from a fresh parser over a token stream. -/
def parseProgram (fuel : Nat) (toks : List Token) :
    PRes (List PStatement × ParserState) :=
  parseProgramLoop fuel (parserNew toks) []

/-- Lexer state, from src/src/lexer.rs lines 3-8: the input bytes, the
current and next read positions, and the current character (None once past
the end of input). -/
structure Lexer where
  input : List Nat
  position : Nat
  readPosition : Nat
  ch : Option Nat

/-- Lexer::read_char (src/src/lexer.rs lines 86-96). -/
def readChar (lx : Lexer) : Lexer :=
  { input := lx.input
    position := lx.readPosition
    readPosition := lx.readPosition + 1
    ch := if lx.input.length ≤ lx.readPosition then none
          else List.get? lx.input lx.readPosition }

/-- Lexer::peek_char (src/src/lexer.rs lines 98-104). -/
def peekChar (lx : Lexer) : Option Nat :=
  if lx.input.length ≤ lx.readPosition then none
  else List.get? lx.input lx.readPosition

/-- Lexer::new (src/src/lexer.rs lines 11-21). -/
def lexerNew (input : List Nat) : Lexer :=
  readChar { input := input, position := 0, readPosition := 0, ch := none }

/-- The inner loop of Lexer::skip_comment (src/src/lexer.rs lines 120-128):
read until a newline or the end of input, consuming the terminator. -/
def skipCommentInner : Nat → Lexer → Option Lexer
  | 0, _ => none
  | fuel + 1, lx =>
      match lx.ch with
      | some 10 => some (readChar lx)
      | none => some (readChar lx)
      | _ => skipCommentInner fuel (readChar lx)

/-- Lexer::skip_comment (src/src/lexer.rs lines 118-130): repeat the inner
loop while the current character is a hash. -/
def skipComment : Nat → Lexer → Option Lexer
  | 0, _ => none
  | fuel + 1, lx =>
      match lx.ch with
      | some 35 =>
          match skipCommentInner fuel lx with
          | some lx1 => skipComment fuel lx1
          | none => none
      | _ => some lx

/-- Lexer::skip_whitespace_and_comments (src/src/lexer.rs lines 106-116). -/
def skipWs : Nat → Lexer → Option Lexer
  | 0, _ => none
  | fuel + 1, lx =>
      match lx.ch with
      | some 35 =>
          match skipComment fuel lx with
          | some lx1 => skipWs fuel lx1
          | none => none
      | some 32 | some 9 | some 10 | some 13 => skipWs fuel (readChar lx)
      | _ => some lx

/-- The loop of Lexer::read_string (src/src/lexer.rs lines 135-141):
read_char, then break only on a double quote or a zero byte.  A None
current character (end of input) matches neither break pattern, so the
loop continues past the end of input. -/
def readStringLoop : Nat → Lexer → Option Lexer
  | 0, _ => none
  | fuel + 1, lx =>
      match readChar lx with
      | lx1 =>
          match lx1.ch with
          | some 34 => some lx1
          | some 0 => some lx1
          | _ => readStringLoop fuel lx1

/-- Lexer::read_string (src/src/lexer.rs lines 132-144): run the loop and
slice the input between the opening quote and the break position. -/
def readStringBytes (fuel : Nat) (lx : Lexer) : Option (List Nat × Lexer) :=
  match readStringLoop fuel lx with
  | some lx1 =>
      some ((lx.input.drop (lx.position + 1)).take (lx1.position - (lx.position + 1)), lx1)
  | none => none

/-- ASCII bytes to string (the String::from_utf8 of the token payloads,
adequate for the ASCII inputs the claims use). -/
def bytesToString (bs : List Nat) : String := String.mk (bs.map Char.ofNat)

/-- Lexer::is_letter (src/src/lexer.rs lines 156-162). -/
def isLetterB : Option Nat → Bool
  | some c => (97 ≤ c && c ≤ 122) || (65 ≤ c && c ≤ 90) || c == 95
  | none => false

/-- Lexer::is_digit (src/src/lexer.rs lines 176-181). -/
def isDigitB : Option Nat → Bool
  | some c => 48 ≤ c && c ≤ 57
  | none => false

/-- Token::from for identifier slices: keyword classification, from the
From impl in the token module (mirrored by core/src/token.rs lines
133-146 restricted to this revision's keywords). -/
def tokenFromBytes (bs : List Nat) : Token :=
  match bytesToString bs with
  | "fn" => .Function
  | "while" => .While
  | "true" => .True
  | "false" => .False
  | "if" => .If
  | "else" => .Else
  | "return" => .Return
  | s => .Ident s

/-- The loop of Lexer::read_identifier (src/src/lexer.rs lines 146-154). -/
def readIdentLoop : Nat → Lexer → Option Lexer
  | 0, _ => none
  | fuel + 1, lx =>
      if isLetterB lx.ch then readIdentLoop fuel (readChar lx) else some lx

/-- Lexer::read_identifier: slice the letters and classify keywords. -/
def readIdentifier (fuel : Nat) (lx : Lexer) : Option (Token × Lexer) :=
  match readIdentLoop fuel lx with
  | some lx1 =>
      some (tokenFromBytes ((lx.input.drop lx.position).take (lx1.position - lx.position)), lx1)
  | none => none

/-- The digit loop of Lexer::read_number (src/src/lexer.rs lines 167-169). -/
def readDigitLoop : Nat → Lexer → Option Lexer
  | 0, _ => none
  | fuel + 1, lx =>
      if isDigitB lx.ch then readDigitLoop fuel (readChar lx) else some lx

/-- Lexer::read_number (src/src/lexer.rs lines 164-174). -/
def readNumber (fuel : Nat) (lx : Lexer) : Option (Token × Lexer) :=
  match readDigitLoop fuel lx with
  | some lx1 =>
      some (Token.Int (bytesToString ((lx.input.drop lx.position).take (lx1.position - lx.position))), lx1)
  | none => none

/-- Lexer::next_token (src/src/lexer.rs lines 23-84), fuel-bounded for its
internal loops; a none result means no bound suffices (the loop in
question does not terminate). -/
def lexNextToken (fuel : Nat) (lx : Lexer) : Option (Token × Lexer) :=
  match skipWs fuel lx with
  | none => none
  | some lx0 =>
      match lx0.ch with
      | none => some (.EOF, readChar lx0)
      | some 61 =>
          match peekChar lx0 with
          | some 61 => some (.Eq, readChar (readChar lx0))
          | _ => some (.Assign, readChar lx0)
      | some 33 =>
          match peekChar lx0 with
          | some 61 => some (.NotEq, readChar (readChar lx0))
          | _ => some (.Bang, readChar lx0)
      | some 58 =>
          match peekChar lx0 with
          | some 61 => some (.Walrus, readChar (readChar lx0))
          | _ => some (.Illegal " ", readChar lx0)
      | some 59 => some (.Semicolon, readChar lx0)
      | some 40 => some (.LParen, readChar lx0)
      | some 41 => some (.RParen, readChar lx0)
      | some 44 => some (.Comma, readChar lx0)
      | some 43 => some (.Plus, readChar lx0)
      | some 45 => some (.Minus, readChar lx0)
      | some 42 => some (.Asterisk, readChar lx0)
      | some 47 => some (.Slash, readChar lx0)
      | some 37 => some (.Percent, readChar lx0)
      | some 62 => some (.GT, readChar lx0)
      | some 60 => some (.LT, readChar lx0)
      | some 123 => some (.LBrace, readChar lx0)
      | some 125 => some (.RBrace, readChar lx0)
      | some 34 =>
          match readStringBytes fuel lx0 with
          | some (bs, lx1) => some (.String (bytesToString bs), readChar lx1)
          | none => none
      | some c =>
          if isLetterB (some c) then readIdentifier fuel lx0
          else if isDigitB (some c) then readNumber fuel lx0
          else some (.Illegal " ", readChar lx0)

end Uler

namespace Uler

/-- Claim C1, counterexample: evaluating an if whose condition is the
non-Boolean Integer 1 does not fail with a runtime type error — without an
alternative it yields Null, and with an alternative it evaluates the
alternative (the source's own test expects exactly this for
"if (1) { true } else { false }"). -/
theorem c1_counterexample :
    (evalExpr 9 store0 0 (.IfExpression (.IntegerLiteral 1)
      [.ExpressionStatement (.IntegerLiteral 1)] none)).1 = .ok .Null ∧
    (evalExpr 9 store0 0 (.IfExpression (.IntegerLiteral 1)
      [.ExpressionStatement (.BooleanExpression true)]
      (some [.ExpressionStatement (.BooleanExpression false)]))).1
      = .ok (.Boolean false) := ⟨rfl, rfl⟩

/-- Claim C1, amended: a Boolean-true condition evaluates the consequence;
any other condition value — Boolean false and every non-Boolean value
alike — evaluates the alternative when present and otherwise yields Null;
a non-Boolean condition is never a runtime type error. -/
theorem c1_if_semantics (fuel : Nat) (s s1 : Store) (env : Nat) (cond : Expression)
    (cons : List Statement) (alt : Option (List Statement)) :
    (evalExpr fuel s env cond = (.ok (.Boolean true), s1) →
      evalExpr (fuel + 1) s env (.IfExpression cond cons alt) =
        evalStmt fuel s1 env (.BlockStatement cons)) ∧
    (∀ v : Object, v ≠ .Boolean true → evalExpr fuel s env cond = (.ok v, s1) →
      evalExpr (fuel + 1) s env (.IfExpression cond cons alt) =
        match alt with
        | some block => evalStmt fuel s1 env (.BlockStatement block)
        | none => (.ok .Null, s1)) := by
  constructor
  · intro h
    simp only [evalExpr, h]
  · intro v hv h
    simp only [evalExpr, h]

/-- Claim C1, witness for c1_if_semantics at concrete inputs. -/
theorem c1_witness :
    evalExpr 2 store0 0 (.IfExpression (.BooleanExpression true)
      [.ExpressionStatement (.IntegerLiteral 3)] none) =
      evalStmt 1 store0 0 (.BlockStatement [.ExpressionStatement (.IntegerLiteral 3)]) ∧
    evalExpr 2 store0 0 (.IfExpression (.IntegerLiteral 1)
      [.ExpressionStatement (.IntegerLiteral 3)] none) = (.ok .Null, store0) :=
  ⟨(c1_if_semantics 1 store0 store0 0 (.BooleanExpression true)
      [.ExpressionStatement (.IntegerLiteral 3)] none).1 rfl,
   (c1_if_semantics 1 store0 store0 0 (.IntegerLiteral 1)
      [.ExpressionStatement (.IntegerLiteral 3)] none).2 (.Integer 1)
      (fun h => Object.noConfusion h) rfl⟩

/-- Claim C2, counterexample: a top-level return statement makes the whole
program evaluation end with Err(ReturningValue(5)) — the error channel —
not with the plain value Ok(Integer 5) the claim requires. -/
theorem c2_counterexample :
    (evaluateProgram 9 [.ReturnStatement (.IntegerLiteral 5)]).1 =
      .err (.ReturningValue (.Integer 5)) ∧
    (evaluateProgram 9 [.ReturnStatement (.IntegerLiteral 5)]).1 ≠ .ok (.Integer 5) :=
  ⟨rfl, fun h => Outcome.noConfusion h⟩

/-- Claim C2, amended: a return statement produces the ReturningValue
signal on the error channel; the signal unwinds through statement
sequences (blocks), if branches and while bodies; the nearest
function-call boundary converts it back into an ok value (shown on the
concrete call program, which yields 7); but a signal escaping the
outermost program evaluation stays on the error channel —
Evaluator::evaluate performs no last-resort conversion. -/
theorem c2_return_signal :
    (∀ (fuel : Nat) (s s1 : Store) (env : Nat) (e : Expression) (v : Object),
      evalExpr fuel s env e = (.ok v, s1) →
      evalStmt (fuel + 1) s env (.ReturnStatement e) = (.err (.ReturningValue v), s1)) ∧
    (∀ (fuel : Nat) (s s1 : Store) (env : Nat) (stmt : Statement)
        (rest : List Statement) (acc : Object) (er : EvaluatorError),
      evalStmt fuel s env stmt = (.err er, s1) →
      evalStmtList (fuel + 1) s env acc (stmt :: rest) = (.err er, s1)) ∧
    (∀ (fuel : Nat) (s s1 s2 : Store) (env : Nat) (cond : Expression)
        (cons : List Statement) (alt : Option (List Statement)) (er : EvaluatorError),
      evalExpr fuel s env cond = (.ok (.Boolean true), s1) →
      evalStmt fuel s1 env (.BlockStatement cons) = (.err er, s2) →
      evalExpr (fuel + 1) s env (.IfExpression cond cons alt) = (.err er, s2)) ∧
    (∀ (fuel : Nat) (s s1 s2 : Store) (env : Nat) (cond : Expression)
        (block : List Statement) (er : EvaluatorError),
      evalExpr fuel s env cond = (.ok (.Boolean true), s1) →
      evalStmt fuel s1 env (.BlockStatement block) = (.err er, s2) →
      evalStmt (fuel + 1) s env (.WhileStatement cond block) = (.err er, s2)) ∧
    (evaluateProgram 30 [
      .Var .Walrus "f" (.FunctionLiteral []
        [.ReturnStatement (.IntegerLiteral 7), .ExpressionStatement (.IntegerLiteral 9)]),
      .ExpressionStatement (.CallExpression (.Identifier "f") [])]).1 = .ok (.Integer 7) ∧
    (evaluateProgram 9 [.ReturnStatement (.IntegerLiteral 5)]).1 =
      .err (.ReturningValue (.Integer 5)) := by
  refine ⟨?_, ?_, ?_, ?_, rfl, rfl⟩
  · intro fuel s s1 env e v h
    simp only [evalStmt, h]
  · intro fuel s s1 env stmt rest acc er h
    simp only [evalStmtList, h]
  · intro fuel s s1 s2 env cond cons alt er h1 h2
    simp only [evalExpr, h1, h2]
  · intro fuel s s1 s2 env cond block er h1 h2
    simp only [evalStmt, h1, h2]

/-- Claim C2, witness for c2_return_signal at a concrete return. -/
theorem c2_witness :
    evalStmt 2 store0 0 (.ReturnStatement (.IntegerLiteral 5)) =
      (.err (.ReturningValue (.Integer 5)), store0) :=
  c2_return_signal.1 1 store0 store0 0 (.IntegerLiteral 5) (.Integer 5) rfl

/-- Claim C3, counterexample: the claimed order places BitwiseOr,
BitwiseXor, BitwiseAnd and Shift strictly between LessGreater and Sum, but
in the source enum no precedence level at all lies strictly between
LessGreater and Sum. -/
theorem c3_counterexample :
    ¬ ∃ p : Precedence, Precedence.lt .LessGreater p ∧ Precedence.lt p .Sum := by decide

/-- Claim C3, amended: the precedence levels of src/src/parser.rs are
exactly the seven levels Lowest < Equals < LessGreater < Sum < Product <
Prefix < Call — there are no bitwise or shift levels — and with the
spec-modelled precedence-climbing parser "1 + 2 * 3" parses as
Infix(+, 1, Infix(*, 2, 3)) and "(1 + 2) * 3" parses as
Infix(*, Infix(+, 1, 2), 3). -/
theorem c3_precedence_order :
    Precedence.lt .Lowest .Equals ∧ Precedence.lt .Equals .LessGreater ∧
    Precedence.lt .LessGreater .Sum ∧ Precedence.lt .Sum .Product ∧
    Precedence.lt .Product .UnaryPrec ∧ Precedence.lt .UnaryPrec .Call ∧
    (∀ p : Precedence, p ∈ precAll) ∧
    prattParse 20 .Lowest [.Int "1", .Plus, .Int "2", .Asterisk, .Int "3"] =
      some (.InfixExpression (.IntegerLiteral 1) .Plus
        (.InfixExpression (.IntegerLiteral 2) .Asterisk (.IntegerLiteral 3)), []) ∧
    prattParse 20 .Lowest [.LParen, .Int "1", .Plus, .Int "2", .RParen, .Asterisk, .Int "3"] =
      some (.InfixExpression
        (.InfixExpression (.IntegerLiteral 1) .Plus (.IntegerLiteral 2))
        .Asterisk (.IntegerLiteral 3), []) :=
  ⟨by decide, by decide, by decide, by decide, by decide, by decide,
   fun p => by cases p <;> decide, rfl, rfl⟩

/-- Claim C4: a declare statement fails with VariableRedeclaration when the
name exists in the current scope, with OverwriteBuiltin when it does not
but collides with a builtin name, and otherwise binds the evaluated value
in the current scope with the statement evaluating to that value;
"a := 1; a := 2;" fails with the redeclaration error and
"a := 1; a = 2; a;" evaluates to 2. -/
theorem c4_declare_semantics :
    (∀ (fuel : Nat) (s : Store) (env : Nat) (name : String) (value : Expression),
      envHasHere s env name = true →
      evalStmt (fuel + 1) s env (.Var .Walrus name value) =
        (.err (.VariableRedeclaration name), s)) ∧
    (∀ (fuel : Nat) (s : Store) (env : Nat) (name : String) (value : Expression),
      envHasHere s env name = false → hasFn name = true →
      evalStmt (fuel + 1) s env (.Var .Walrus name value) =
        (.err (.OverwriteBuiltin name), s)) ∧
    (∀ (fuel : Nat) (s s1 : Store) (env : Nat) (name : String)
        (value : Expression) (v : Object),
      envHasHere s env name = false → hasFn name = false →
      evalExpr fuel s env value = (.ok v, s1) →
      evalStmt (fuel + 1) s env (.Var .Walrus name value) = (.ok v, envSet s1 env name v)) ∧
    (evaluateProgram 9 [.Var .Walrus "a" (.IntegerLiteral 1),
      .Var .Walrus "a" (.IntegerLiteral 2)]).1 = .err (.VariableRedeclaration "a") ∧
    (evaluateProgram 9 [.Var .Walrus "a" (.IntegerLiteral 1),
      .Var .Assign "a" (.IntegerLiteral 2),
      .ExpressionStatement (.Identifier "a")]).1 = .ok (.Integer 2) := by
  refine ⟨?_, ?_, ?_, rfl, rfl⟩
  · intro fuel s env name value h
    simp [evalStmt, h]
  · intro fuel s env name value h1 h2
    simp [evalStmt, h1, h2]
  · intro fuel s s1 env name value v h1 h2 h3
    simp [evalStmt, h1, h2, h3]

/-- Claim C4, witness for c4_declare_semantics at concrete stores. -/
theorem c4_witness :
    evalStmt 3 (envSet store0 0 "a" (.Integer 1)) 0 (.Var .Walrus "a" (.IntegerLiteral 2)) =
      (.err (.VariableRedeclaration "a"), envSet store0 0 "a" (.Integer 1)) ∧
    evalStmt 3 store0 0 (.Var .Walrus "length" (.IntegerLiteral 2)) =
      (.err (.OverwriteBuiltin "length"), store0) ∧
    evalStmt 3 store0 0 (.Var .Walrus "a" (.IntegerLiteral 1)) =
      (.ok (.Integer 1), envSet store0 0 "a" (.Integer 1)) :=
  ⟨c4_declare_semantics.1 2 (envSet store0 0 "a" (.Integer 1)) 0 "a" (.IntegerLiteral 2) rfl,
   c4_declare_semantics.2.1 2 store0 0 "length" (.IntegerLiteral 2) rfl rfl,
   c4_declare_semantics.2.2.1 2 store0 store0 0 "a" (.IntegerLiteral 1) (.Integer 1)
     rfl rfl rfl⟩

/-- Claim C5, counterexample: a while loop whose condition evaluates to the
non-Boolean Integer 1 is silently exited with value Null — it is not a
runtime error as the claim requires. -/
theorem c5_counterexample :
    (evalStmt 9 store0 0 (.WhileStatement (.IntegerLiteral 1)
      [.ExpressionStatement (.IntegerLiteral 2)])).1 = .ok .Null := rfl

/-- Whenever a while statement evaluates to an ok value, that value is
Null (helper for c5_while_semantics, by induction on the step bound). -/
lemma while_ok_is_null : ∀ (fuel : Nat) (s : Store) (env : Nat) (cond : Expression)
    (block : List Statement) (v : Object) (s1 : Store),
    evalStmt fuel s env (.WhileStatement cond block) = (.ok v, s1) → v = .Null := by
  intro fuel
  induction fuel with
  | zero =>
      intro s env cond block v s1 h
      simp [evalStmt] at h
  | succ n ih =>
      intro s env cond block v s1 h
      simp only [evalStmt] at h
      split at h
      · split at h
        · exact ih _ _ _ _ _ _ h
        · rename_i hne
          exact ((hne v s1) h).elim
      · simp only [Prod.mk.injEq] at h
        exact (Outcome.ok.inj h.1).symm
      · rename_i hne1 hne2
        exact ((hne2 v s1) h).elim

/-- Claim C5, amended: the condition is re-evaluated before each iteration
and a Boolean-true condition runs the body and loops again; any condition
value other than Boolean true — Boolean false and every non-Boolean value
alike — silently exits the loop with value Null rather than raising a
runtime error; errors from the condition propagate; and a while statement
that completes normally always has value Null. -/
theorem c5_while_semantics :
    (∀ (fuel : Nat) (s s1 : Store) (env : Nat) (cond : Expression)
        (block : List Statement) (v : Object), v ≠ .Boolean true →
      evalExpr fuel s env cond = (.ok v, s1) →
      evalStmt (fuel + 1) s env (.WhileStatement cond block) = (.ok .Null, s1)) ∧
    (∀ (fuel : Nat) (s s1 s2 : Store) (env : Nat) (cond : Expression)
        (block : List Statement) (w : Object),
      evalExpr fuel s env cond = (.ok (.Boolean true), s1) →
      evalStmt fuel s1 env (.BlockStatement block) = (.ok w, s2) →
      evalStmt (fuel + 1) s env (.WhileStatement cond block) =
        evalStmt fuel s2 env (.WhileStatement cond block)) ∧
    (∀ (fuel : Nat) (s s1 : Store) (env : Nat) (cond : Expression)
        (block : List Statement) (er : EvaluatorError),
      evalExpr fuel s env cond = (.err er, s1) →
      evalStmt (fuel + 1) s env (.WhileStatement cond block) = (.err er, s1)) ∧
    (∀ (fuel : Nat) (s : Store) (env : Nat) (cond : Expression)
        (block : List Statement) (v : Object) (s1 : Store),
      evalStmt fuel s env (.WhileStatement cond block) = (.ok v, s1) → v = .Null) := by
  refine ⟨?_, ?_, ?_, while_ok_is_null⟩
  · intro fuel s s1 env cond block v hv h
    simp only [evalStmt, h]
  · intro fuel s s1 s2 env cond block w h1 h2
    simp only [evalStmt, h1, h2]
  · intro fuel s s1 env cond block er h
    simp only [evalStmt, h]

/-- Claim C5, witness for c5_while_semantics at a concrete non-Boolean
condition. -/
theorem c5_witness :
    evalStmt 3 store0 0 (.WhileStatement (.IntegerLiteral 1)
      [.ExpressionStatement (.IntegerLiteral 2)]) = (.ok .Null, store0) :=
  c5_while_semantics.1 2 store0 store0 0 (.IntegerLiteral 1)
    [.ExpressionStatement (.IntegerLiteral 2)] (.Integer 1)
    (fun h => Object.noConfusion h) rfl

/-- Claim C6, counterexample: after "f := fn(x) { x }; f(1);", calling f
again with no arguments yields 1 — the parameter binding of the first call
persisted in the function's captured environment, so the captured
environment is not left unchanged and the unmatched parameter is not
unbound on the second call (the claim would require an unknown-variable
error). -/
theorem c6_counterexample :
    (evaluateProgram 40 [
      .Var .Walrus "f" (.FunctionLiteral ["x"] [.ExpressionStatement (.Identifier "x")]),
      .ExpressionStatement (.CallExpression (.Identifier "f") [.IntegerLiteral 1]),
      .ExpressionStatement (.CallExpression (.Identifier "f") [])]).1 = .ok (.Integer 1) := rfl

/-- Claim C6, amended: a call evaluates the callee, then all arguments
left-to-right, and binds each parameter to its argument by writing
directly into the function's captured environment — no fresh child
environment is created at call time, so the captured environment is
mutated by the call (shown concretely: after f(1) the captured scope
holds x = 1); excess arguments are silently dropped and unmatched
parameters are left unbound by the zip; a propagating ReturningValue is
converted into the call's result. -/
theorem c6_call_semantics :
    (∀ (fuel : Nat) (s s1 s2 : Store) (env : Nat) (fnExpr : Expression)
        (args : List Expression) (params : List String) (body : List Statement)
        (fenv : Nat) (vs : List Object),
      evalExpr fuel s env fnExpr = (.ok (.Function params body fenv), s1) →
      evalExprList fuel s1 env args = (.ok vs, s2) →
      evalExpr (fuel + 1) s env (.CallExpression fnExpr args) =
        (match evalStmt fuel (bindParams s2 fenv params vs) fenv (.BlockStatement body) with
         | (.ok v, s3) => (.ok v, s3)
         | (.err (.ReturningValue v), s3) => (.ok v, s3)
         | r => r)) ∧
    (∀ (s : Store) (e : Nat) (vs : List Object), bindParams s e [] vs = s) ∧
    (∀ (s : Store) (e : Nat) (p : String) (ps : List String),
      bindParams s e (p :: ps) [] = s) ∧
    (envGet (evaluateProgram 40 [
      .Var .Walrus "f" (.FunctionLiteral ["x"] [.ExpressionStatement (.Identifier "x")]),
      .ExpressionStatement (.CallExpression (.Identifier "f") [.IntegerLiteral 1])]).2
      1 "x" = some (.Integer 1)) := by
  refine ⟨?_, ?_, ?_, rfl⟩
  · intro fuel s s1 s2 env fnExpr args params body fenv vs h1 h2
    simp only [evalExpr, h1, h2]
  · intro s e vs; rfl
  · intro s e p ps; rfl

/-- Claim C6, witness for c6_call_semantics at a concrete call of a
function literal. -/
theorem c6_witness :
    evalExpr 6 store0 0
      (.CallExpression (.FunctionLiteral ["x"] [.ExpressionStatement (.Identifier "x")])
        [.IntegerLiteral 1]) =
      (match evalStmt 5
          (bindParams (store0 ++ [{ vars := [], parent := some 0 }]) 1 ["x"] [.Integer 1]) 1
          (.BlockStatement [.ExpressionStatement (.Identifier "x")]) with
       | (.ok v, s3) => (.ok v, s3)
       | (.err (.ReturningValue v), s3) => (.ok v, s3)
       | r => r) := by
  exact c6_call_semantics.1 5 store0 _ _ 0
    (.FunctionLiteral ["x"] [.ExpressionStatement (.Identifier "x")])
    [.IntegerLiteral 1] ["x"] [.ExpressionStatement (.Identifier "x")] 1
    [.Integer 1] rfl rfl

/-- Claim C7, counterexample: the infix plus of two Strings yields the
operands joined with a single separating space — "a" + "b" evaluates to
"a b", not to the direct concatenation "ab" the claim requires. -/
theorem c7_counterexample :
    evalInfix (.String "a") .Plus (.String "b") = .ok (.String "a b") ∧
    evalInfix (.String "a") .Plus (.String "b") ≠ .ok (.String ("a" ++ "b")) :=
  ⟨rfl, fun h => by
    have h1 := Outcome.ok.inj h
    have h2 := Object.String.inj h1
    exact absurd h2 (by decide)⟩

/-- Claim C7, amended: for every two String operands, infix plus succeeds
and yields the left operand, a single space, then the right operand
(format with a space separator); every other infix operator on two
Strings — the comparison operators included — fails with
UnknownInfixOperator. -/
theorem c7_string_concat : ∀ l r : String,
    evalInfix (.String l) .Plus (.String r) = .ok (.String (l ++ " " ++ r)) ∧
    (∀ op : Token, op ≠ .Plus →
      evalInfix (.String l) op (.String r) =
        .err (.UnknownInfixOperator (.String l) op (.String r))) ∧
    (evalExpr 9 store0 0
      (.InfixExpression (.StringLiteral "a") .Plus (.StringLiteral "b"))).1
      = .ok (.String "a b") := by
  intro l r
  refine ⟨rfl, ?_, rfl⟩
  intro op h
  cases op
  case Plus => exact absurd rfl h
  all_goals rfl

/-- Claim C7, witness for c7_string_concat at a non-plus operator. -/
theorem c7_witness :
    evalInfix (.String "a") .Asterisk (.String "b") =
      .err (.UnknownInfixOperator (.String "a") .Asterisk (.String "b")) :=
  (c7_string_concat "a" "b").2.1 .Asterisk (by decide)

end Uler

namespace Uler

/-- Parser::next_token leaves the error list untouched. -/
lemma parserNextToken_errors (st : ParserState) : (parserNextToken st).errors = st.errors := rfl

/-- Parser::expect_peek leaves the error list untouched. -/
lemma expectPeek_errors (st : ParserState) (other : Token) :
    ((expectPeek st other).2).errors = st.errors := by
  simp only [expectPeek]
  split <;> rfl

/-- Componentwise form of expectPeek_errors. -/
lemma expectPeek_snd_errors {st st2 : ParserState} {other : Token} {b : Bool}
    (h : expectPeek st other = (b, st2)) : st2.errors = st.errors := by
  have h2 : (expectPeek st other).2 = st2 := by rw [h]
  rw [← h2]
  exact expectPeek_errors st other

/-- The expression prefix rules leave the error list untouched. -/
lemma prefixFn_errors : ∀ (fuel : Nat) (st : ParserState) (e : Expression)
    (st1 : ParserState), prefixFn fuel st = some (e, st1) → st1.errors = st.errors := by
  intro fuel
  induction fuel with
  | zero => intro st e st1 h; exact Option.noConfusion h
  | succ n ih =>
      intro st e st1 h
      rcases hcur : st.curr with _ | tok
      · simp only [prefixFn, hcur] at h
        exact Option.noConfusion h
      · cases tok <;> simp only [prefixFn, hcur] at h <;> try exact Option.noConfusion h
        case Ident s => cases h; rfl
        case Int s =>
          split at h
          · cases h; rfl
          · exact Option.noConfusion h
        case String s => cases h; rfl
        case True => cases h; rfl
        case False => cases h; rfl
        case Bang =>
          split at h
          · rename_i e2 st2 hrec
            cases h
            exact ih (parserNextToken st) _ _ hrec
          · exact Option.noConfusion h
        case Minus =>
          split at h
          · rename_i e2 st2 hrec
            cases h
            exact ih (parserNextToken st) _ _ hrec
          · exact Option.noConfusion h
        case LParen =>
          split at h
          · rename_i e2 st2 hrec
            split at h
            · rename_i st3 heq3
              cases h
              exact (expectPeek_snd_errors heq3).trans
                (ih (parserNextToken st) _ _ hrec)
            · exact Option.noConfusion h
          · exact Option.noConfusion h

/-- The skip-to-semicolon loop leaves the error list untouched. -/
lemma skipToSemicolon_errors : ∀ (fuel : Nat) (st st1 : ParserState),
    skipToSemicolon fuel st = some st1 → st1.errors = st.errors := by
  intro fuel
  induction fuel with
  | zero => intro st st1 h; exact Option.noConfusion h
  | succ n ih =>
      intro st st1 h
      simp only [skipToSemicolon] at h
      split at h
      · cases h; rfl
      · exact ih (parserNextToken st) _ h

/-- parse_let_statement leaves the error list untouched. -/
lemma parseLetStatement_errors (fuel : Nat) (st : ParserState) (r : Option PStatement)
    (st1 : ParserState) (h : parseLetStatement fuel st = .ok (r, st1)) :
    st1.errors = st.errors := by
  simp only [parseLetStatement] at h
  split at h
  · rename_i stA heqA
    cases h
    exact expectPeek_snd_errors heqA
  · rename_i stA heqA
    split at h
    · rename_i stB heqB
      cases h
      exact (expectPeek_snd_errors heqB).trans (expectPeek_snd_errors heqA)
    · rename_i stB heqB
      split at h
      · rename_i stC heqC
        cases h
        exact ((skipToSemicolon_errors _ _ _ heqC).trans
          (expectPeek_snd_errors heqB)).trans (expectPeek_snd_errors heqA)
      · exact PRes.noConfusion h

/-- parse_return_statement leaves the error list untouched. -/
lemma parseReturnStatement_errors (fuel : Nat) (st : ParserState) (r : Option PStatement)
    (st1 : ParserState) (h : parseReturnStatement fuel st = .ok (r, st1)) :
    st1.errors = st.errors := by
  simp only [parseReturnStatement] at h
  split at h
  · rename_i stC heqC
    cases h
    exact skipToSemicolon_errors fuel (parserNextToken st) _ heqC
  · exact PRes.noConfusion h

/-- parse_expression_statement, when it returns at all, leaves the error
list untouched. -/
lemma parseExpressionStatement_errors (fuel : Nat) (st : ParserState)
    (r : Option PStatement) (st1 : ParserState)
    (h : parseExpressionStatement fuel st = .ok (r, st1)) : st1.errors = st.errors := by
  simp only [parseExpressionStatement] at h
  split at h
  · exact PRes.noConfusion h
  · rename_i e2 st2 hrec
    cases h
    have h2 := prefixFn_errors _ _ _ _ hrec
    by_cases hc : peekTokenIs st2 .Semicolon
    · rw [if_pos hc]; exact h2
    · rw [if_neg hc]; exact h2

/-- parse_statement leaves the error list untouched. -/
lemma parseStatement_errors (fuel : Nat) (st : ParserState) (r : Option PStatement)
    (st1 : ParserState) (h : parseStatement fuel st = .ok (r, st1)) :
    st1.errors = st.errors := by
  simp only [parseStatement] at h
  split at h
  · exact parseLetStatement_errors _ _ _ _ h
  · exact parseReturnStatement_errors _ _ _ _ h
  · exact parseExpressionStatement_errors _ _ _ _ h
  · cases h; rfl

/-- The parse_program loop leaves the error list untouched. -/
lemma parseProgramLoop_errors : ∀ (fuel : Nat) (st : ParserState)
    (acc prog : List PStatement) (st1 : ParserState),
    parseProgramLoop fuel st acc = .ok (prog, st1) → st1.errors = st.errors := by
  intro fuel
  induction fuel with
  | zero => intro st acc prog st1 h; exact PRes.noConfusion h
  | succ n ih =>
      intro st acc prog st1 h
      simp only [parseProgramLoop] at h
      split at h
      · cases h; rfl
      · split at h
        · rename_i opt st2 hps
          have h2 := parseStatement_errors _ _ _ _ hps
          have h3 := ih _ _ _ _ h
          exact h3.trans h2
        · exact PRes.noConfusion h
        · exact PRes.noConfusion h

/-- Claim C8, counterexample: on a token stream starting with a plus sign —
a token with no prefix rule — parse_program panics through the unwrap in
parse_expression_statement instead of recording a syntax error. -/
theorem c8_counterexample : parseProgram 9 [.Plus, .Semicolon] = .panicked := rfl

/-- Claim C8, amended: whenever parse_program returns, it returns the
built Program with the parser's error list exactly as it started — no
error is ever recorded and no error list is ever returned (the function
has no error return path) — while a token with no prefix rule is a host
panic, not a recorded error; concretely "5;" and the let-statement stub
both parse to one-statement programs with an empty error list. -/
theorem c8_parse_program_behavior :
    (∀ (fuel : Nat) (st : ParserState) (acc prog : List PStatement) (st1 : ParserState),
      parseProgramLoop fuel st acc = .ok (prog, st1) → st1.errors = st.errors) ∧
    parseProgram 9 [.Int "5", .Semicolon] =
      .ok ([.exprStmt (.IntegerLiteral 5)],
        { stream := [], curr := some .EOF, peek := some .EOF, errors := [] }) ∧
    parseProgram 20 [.Let, .Ident "x", .Assign, .Int "5", .Semicolon] =
      .ok ([.letStmt "x" (.Identifier "5")],
        { stream := [], curr := some .EOF, peek := some .EOF, errors := [] }) :=
  ⟨parseProgramLoop_errors, rfl, rfl⟩

/-- Claim C8, witness for c8_parse_program_behavior at a concrete parse. -/
theorem c8_witness :
    ({ stream := [], curr := some Token.EOF, peek := some Token.EOF,
        errors := [] } : ParserState).errors =
      (parserNew [Token.Int "5", Token.Semicolon]).errors :=
  c8_parse_program_behavior.1 9 (parserNew [.Int "5", .Semicolon]) []
    [.exprStmt (.IntegerLiteral 5)] _ rfl

/-- Once the read position is past the end of input, the read_string loop
never breaks: read_char only ever yields None there, which matches neither
of the loop's break patterns (a quote or a zero byte). -/
lemma readStringLoop_past_end : ∀ (fuel : Nat) (lx : Lexer),
    lx.input.length ≤ lx.readPosition → readStringLoop fuel lx = none := by
  intro fuel
  induction fuel with
  | zero => intro lx h; rfl
  | succ n ih =>
      intro lx h
      have hch : (readChar lx).ch = none := by
        simp only [readChar]
        rw [if_pos h]
      simp only [readStringLoop]
      rw [hch]
      exact ih (readChar lx) (by simp only [readChar]; omega)

/-- On the unterminated string literal, the read_string loop consumes the
rest of the input and then runs forever: no step bound makes it break. -/
lemma readStringLoop_unterminated : ∀ fuel : Nat,
    readStringLoop fuel (lexerNew [34, 97, 98]) = none := by
  intro fuel
  match fuel with
  | 0 => rfl
  | 1 => rfl
  | 2 => rfl
  | n + 3 =>
      have hstep : readStringLoop (n + 3) (lexerNew [34, 97, 98]) =
          readStringLoop n
            { input := [34, 97, 98], position := 3, readPosition := 4, ch := none } := rfl
      rw [hstep]
      exact readStringLoop_past_end n _ (by decide)

/-- Claim C9: on the unterminated string literal input (a quote followed
by two letters and no closing quote, bytes 34 97 98), next_token does not
terminate under any step bound — the read_string loop never reports an
unterminated-string error and never yields a token, contradicting the
claimed error-channel report. -/
theorem c9_unterminated_string_never_returns : ∀ fuel : Nat,
    lexNextToken fuel (lexerNew [34, 97, 98]) = none := by
  intro fuel
  match fuel with
  | 0 => rfl
  | f + 1 =>
      have hskip : skipWs (f + 1) (lexerNew [34, 97, 98]) =
          some (lexerNew [34, 97, 98]) := rfl
      have hloop := readStringLoop_unterminated (f + 1)
      simp only [lexNextToken, hskip, readStringBytes, hloop]
      rfl

/-- Claim C10: integer division and modulo by zero are host panics, not
evaluator errors — the expressions 1 / 0 and 7 % 0 evaluate to the panic
outcome, which is no EvaluatorError value at all, so evaluation is not a
total function into Result. -/
theorem c10_division_by_zero_panics :
    (evalExpr 9 store0 0 (.InfixExpression (.IntegerLiteral 1) .Slash (.IntegerLiteral 0))).1
      = .panicked ∧
    (evalExpr 9 store0 0 (.InfixExpression (.IntegerLiteral 7) .Percent (.IntegerLiteral 0))).1
      = .panicked ∧
    (∀ l : Int, evalInfix (.Integer l) .Slash (.Integer 0) = .panicked) ∧
    (∀ l : Int, evalInfix (.Integer l) .Percent (.Integer 0) = .panicked) ∧
    (∀ (l : Int) (e : EvaluatorError), evalInfix (.Integer l) .Slash (.Integer 0) ≠ .err e) :=
  ⟨rfl, rfl, fun _ => rfl, fun _ => rfl, fun _ _ h => Outcome.noConfusion h⟩

end Uler
